import Mathlib

/-!
Verification of the lexer/parser core of `parser.c`.

The development shallowly embeds `parser.c` in Lean.  The C cursor
(`src`/`ptr`/`end` pointers) is modelled by the remaining suffix of the
source buffer (`rem : List Char`); a token's `start` pointer is modelled by
the suffix of the buffer beginning at the token (so reading "from `start`
onwards", as `atol`/`strtol` do, is reading that list).  The one-past-the-end
byte read by `advance` (`*parser->ptr` after the increment) is modelled by
`List.head?`, which yields `none` at the end of the buffer; this matches the
NUL terminator present for file-backed buffers.  Scanner loops are written
with an explicit fuel argument that the wrappers instantiate with
`rem.length + 1`, which is always sufficient because every loop iteration
consumes at least one byte; this keeps every definition kernel-reducible.
The C `int` returned by `advance`/`peek` (a character, `EOF`, or `0` when an
error is latched) is modelled as `Option Char`, with `none` for `EOF` and
`some (Char.ofNat 0)` for the `return 0;` error path.  Numeric decoding:
`atol` is modelled as the exact base-10 prefix parse of `strtol` (overflow
of the platform `long` is unspecified upstream and is not modelled), and
`atof` as the exact rational value of the `strtod` decimal-literal prefix
(IEEE rounding is abstracted away; the claims only compare against decimal
literals).  The token structure comes from the data model of the spec
(`parser.h` is not part of the sources): kind, a view on the source
(`start`, `len`), the originating line/column, and the two numeric value
fields `i64`/`f64`, modelled as separate fields that keep their previous
value when the scanner does not overwrite them.
-/

/-- Token kinds, from the `tok_kind_t` values used throughout `parser.c`. -/
inductive TokKind where
  | TOK_INVALID
  | TOK_EOF
  | TOK_INT
  | TOK_FLOAT
  | TOK_TEXT
  deriving DecidableEq

/-- Classifier states of `make_token` (parser.c lines 146-152). -/
inductive TState where
  | STATE_INT
  | STATE_FLOAT
  | STATE_EXP_SIGN
  | STATE_EXP
  | STATE_TEXT
  deriving DecidableEq

/-- The current token (`tok_t`).  Modelled from the spec: `parser.h` is not
among the sources, but every field is forced by its uses in `parser.c`:
`kind`, `start` (a pointer into the buffer, here the suffix it points at),
`len`, `line`, `column`, and the decoded values `i64`/`f64`. -/
structure Tok where
  kind : TokKind
  start : List Char
  len : Nat
  line : Nat
  column : Nat
  i64 : Int
  f64 : ℚ
  deriving DecidableEq

/-- Parser state (`parser_t`): cursor suffix, position, latched error, and
the current token.  The error message is kept as the formatted string. -/
structure Parser where
  rem : List Char
  line : Nat
  column : Nat
  error : Option String
  tok : Tok
  deriving DecidableEq

/-- `is_tok_char` (parser.c lines 139-141): `isalnum(c) || c=='.' || c=='+' || c=='-'`. -/
def is_tok_char (c : Char) : Bool :=
  c.isAlphanum || c == '.' || c == '+' || c == '-'

/-- The four whitespace characters of `skip_whitespace`'s switch (lines 123-126). -/
def isWsChar (c : Char) : Bool :=
  c == '\t' || c == '\r' || c == ' ' || c == '\n'

/-- `advance` (parser.c lines 100-112).  Returns the consumed byte and the new
state.  Note the source inspects `*parser->ptr` after the increment, i.e. the
byte FOLLOWING the consumed one, to decide between the newline update
(`line += 1; column = 0`) and the plain `column += 1`. -/
def advance (p : Parser) : Option Char × Parser :=
  if p.error.isSome then (some (Char.ofNat 0), p)
  else
    match p.rem with
    | [] => (none, p)
    | c :: rest =>
      if rest.head? = some '\n' then
        (some c, { p with rem := rest, line := p.line + 1, column := 0 })
      else
        (some c, { p with rem := rest, column := p.column + 1 })

/-- `peek` (parser.c lines 114-118). -/
def peek (p : Parser) : Option Char :=
  if p.error.isSome then some (Char.ofNat 0)
  else p.rem.head?

/-- The comment loop of `skip_whitespace` (lines 130-132):
`while(peek(parser) != '\n' && peek(parser) != EOF) advance(parser);`.
Fuel-indexed; the caller passes `rem.length + 1`, which is sufficient since
every iteration consumes one byte.  (With a latched error the C loop would
not terminate, but that state is unreachable here: `lex` returns before
scanning when an error is latched and the scanner never latches one.) -/
def skipComment (fuel : Nat) (p : Parser) : Parser :=
  match fuel with
  | 0 => p
  | fuel + 1 =>
    match peek p with
    | none => p
    | some c => if c = '\n' then p else skipComment fuel (advance p).2

/-- The loop body of `skip_whitespace` (parser.c lines 120-137), with the
switch rendered as the equivalent character tests. -/
def skip_whitespace_go (fuel : Nat) (p : Parser) : Parser :=
  match fuel with
  | 0 => p
  | fuel + 1 =>
    match peek p with
    | none => p
    | some c =>
      if isWsChar c then skip_whitespace_go fuel (advance p).2
      else if c = '#' then skip_whitespace_go fuel (skipComment (p.rem.length + 1) p)
      else p

/-- `skip_whitespace` (parser.c lines 120-137). -/
def skip_whitespace (p : Parser) : Parser :=
  skip_whitespace_go (p.rem.length + 1) p

/-- One classifier transition of `make_token`'s switch (parser.c lines 160-184). -/
def tstep (st : TState) (c : Char) : TState :=
  match st with
  | .STATE_INT =>
    if c = '.' then .STATE_FLOAT
    else if ¬ c.isDigit then .STATE_TEXT
    else .STATE_INT
  | .STATE_FLOAT =>
    if c = 'E' ∨ c = 'e' then .STATE_EXP_SIGN
    else if ¬ c.isDigit then .STATE_TEXT
    else .STATE_FLOAT
  | .STATE_EXP_SIGN =>
    if c = '+' ∨ c = '-' then .STATE_EXP
    else .STATE_TEXT
  | .STATE_EXP =>
    if ¬ c.isDigit then .STATE_TEXT
    else .STATE_EXP
  | .STATE_TEXT => .STATE_TEXT

/-- The final classification switch of `make_token` (parser.c lines 187-192). -/
def kind_from_state (st : TState) : TokKind :=
  match st with
  | .STATE_INT => .TOK_INT
  | .STATE_FLOAT => .TOK_FLOAT
  | .STATE_EXP => .TOK_FLOAT
  | _ => .TOK_TEXT

/-- The scanning loop of `make_token` (parser.c lines 156-185): repeatedly
`advance`; stop on the first byte that is not a token character (that byte is
consumed by the loop) or on `EOF`; count accepted bytes in `len` and step the
classifier.  Fuel-indexed as above. -/
def scanToken_go (fuel : Nat) (p : Parser) (len : Nat) (st : TState) :
    Parser × Nat × TState :=
  match fuel with
  | 0 => (p, len, st)
  | fuel + 1 =>
    match advance p with
    | (none, p1) => (p1, len, st)
    | (some c, p1) =>
      if is_tok_char c then scanToken_go fuel p1 (len + 1) (tstep st c)
      else (p1, len, st)

/-- The digit-consuming loop of `strtol`: fold base-10 digits until the first
non-digit, starting from `acc`. -/
def atolLoop (acc : Int) : List Char → Int
  | [] => acc
  | c :: rest =>
    if c.isDigit then atolLoop (acc * 10 + ((c.toNat : Int) - 48)) rest
    else acc

/-- `atol(tok.start)` as used in `make_token` (parser.c line 196): the
`strtol` base-10 prefix parse of the buffer suffix (optional sign, then
digits up to the first non-digit; no digits gives 0).  The suffix it is
applied to always begins with a token character, never whitespace, so the
leading-whitespace skip of `strtol` is omitted.  Overflow of the platform
`long` is unspecified upstream and not modelled. -/
def atol (s : List Char) : Int :=
  match s with
  | [] => 0
  | c :: rest =>
    if c = '-' then -(atolLoop 0 rest)
    else if c = '+' then atolLoop 0 rest
    else atolLoop 0 (c :: rest)

/-- Digit run reader for the `atof` model: returns the value of the run, the
number of digits read, and the rest of the input. -/
def readDigits (s : List Char) (v : Nat) (n : Nat) : Nat × Nat × List Char :=
  match s with
  | [] => (v, n, [])
  | c :: rest =>
    if c.isDigit then readDigits rest (v * 10 + (c.toNat - 48)) (n + 1)
    else (v, n, c :: rest)

/-- Exponent part of the `atof` model: an `e`/`E` followed by an optional
sign and at least one digit; otherwise (as in `strtod`) the exponent is not
part of the converted prefix and contributes 0. -/
def atofExp (s : List Char) : Int :=
  match s with
  | [] => 0
  | e :: rest =>
    if e = 'e' ∨ e = 'E' then
      match rest with
      | '-' :: r2 =>
        (fun t => if t.2.1 = 0 then 0 else -(t.1 : Int)) (readDigits r2 0 0)
      | '+' :: r2 =>
        (fun t => if t.2.1 = 0 then 0 else (t.1 : Int)) (readDigits r2 0 0)
      | _ =>
        (fun t => if t.2.1 = 0 then 0 else (t.1 : Int)) (readDigits rest 0 0)
    else 0

/-- Assemble the rational value `sign * mant / 10 ^ fc * 10 ^ ex` of a
decimal literal with mantissa digits `mant`, `fc` of them after the point,
and exponent `ex`, as a single normalized fraction. -/
def atofVal (neg : Bool) (mant : Nat) (fc : Nat) (ex : Int) : ℚ :=
  match ex with
  | .ofNat n =>
    mkRat ((if neg then -(mant : Int) else (mant : Int)) * ((10 ^ n : Nat) : Int)) (10 ^ fc)
  | .negSucc n =>
    mkRat (if neg then -(mant : Int) else (mant : Int)) (10 ^ fc * 10 ^ (n + 1))

/-- `atof(tok.start)` as used in `make_token` (parser.c line 198): the exact
rational value of the `strtod` decimal prefix of the buffer suffix (optional
sign, digits, optional `.` and fraction digits, optional exponent; no
mantissa digits at all gives 0).  IEEE double rounding is abstracted away:
the model returns the exact decimal value. -/
def atof (s : List Char) : ℚ :=
  match s with
  | [] => mkRat 0 1
  | c :: rest =>
    if c = '-' then atofMag true rest
    else if c = '+' then atofMag false rest
    else atofMag false (c :: rest)
where
  /-- Unsigned part: mantissa and exponent, with the sign passed through. -/
  atofMag (neg : Bool) (s : List Char) : ℚ :=
    match readDigits s 0 0 with
    | (ip, ic, s2) =>
      match s2 with
      | '.' :: r =>
        (match readDigits r 0 0 with
         | (fp, fc, s3) =>
           if ic = 0 ∧ fc = 0 then mkRat 0 1
           else atofVal neg (ip * 10 ^ fc + fp) fc (atofExp s3))
      | _ =>
        if ic = 0 then mkRat 0 1
        else atofVal neg ip 0 (atofExp s2)

/-- `make_token` (parser.c lines 143-202): consume the first byte of the
lexeme unconditionally, run the scanning loop from `STATE_INT`, classify,
store `kind` and `len`, and decode `i64`/`f64` from the token's start. -/
def make_token (p : Parser) : Parser :=
  match scanToken_go ((advance p).2.rem.length + 1) (advance p).2 1 .STATE_INT with
  | (p2, len, st) =>
    let kind := kind_from_state st
    let tok1 := { p2.tok with kind := kind, len := len }
    let tok2 :=
      if kind = .TOK_INT then { tok1 with i64 := atol tok1.start }
      else if kind = .TOK_FLOAT then { tok1 with f64 := atof tok1.start }
      else tok1
    { p2 with tok := tok2 }

/-- `lex` (parser.c lines 204-225): return unchanged on a latched error;
otherwise skip whitespace/comments, record the token's start position, and
classify EOF / token run / single offending character. -/
def lex (p : Parser) : Parser :=
  if p.error.isSome then p
  else
    let p1 := skip_whitespace p
    let p2 := { p1 with
      tok := { p1.tok with start := p1.rem, line := p1.line, column := p1.column } }
    match peek p2 with
    | none => { p2 with tok := { p2.tok with kind := .TOK_EOF } }
    | some c =>
      if is_tok_char c then make_token p2
      else { p2 with tok := { p2.tok with kind := .TOK_INVALID } }

/-- The token contents `parse_init` installs before the first `lex`
(parser.c lines 27, 37: `memset` to zero, then `tok.kind = TOK_INVALID`).
The `start` pointer is NULL, modelled as the empty suffix. -/
def initTok : Tok :=
  { kind := .TOK_INVALID, start := [], len := 0, line := 0, column := 0,
    i64 := 0, f64 := 0 }

/-- The parser state `parse_init` builds before its final `lex` call
(parser.c lines 22-37): cursor at the start of the buffer, `line = 0`,
`column = 1`, no error.  `PARSE_ASSERT(len > 0)` restricts the C contract to
nonempty buffers. -/
def initParser (src : List Char) : Parser :=
  { rem := src, line := 0, column := 1, error := none, tok := initTok }

/-- `parse_init` (parser.c lines 22-39) for a caller-supplied buffer. -/
def parse_init (src : List Char) : Parser :=
  lex (initParser src)

/-- `have` (parser.c lines 227-230); named `haveKind` because `have` is a
Lean keyword. -/
def haveKind (p : Parser) (k : TokKind) : Bool :=
  p.tok.kind == k

/-- `match` (parser.c lines 232-237); named `matchKind` because `match` is a
Lean keyword.  Returns the C return value together with the new state. -/
def matchKind (p : Parser) (k : TokKind) : Bool × Parser :=
  if ¬ haveKind p k then (false, p)
  else (true, lex p)

/-- `tok_name` (parser.c lines 239-248). -/
def tok_name (k : TokKind) : String :=
  match k with
  | .TOK_INVALID => "an invalid token"
  | .TOK_EOF => "the end of file"
  | .TOK_INT => "an integer"
  | .TOK_FLOAT => "a number"
  | .TOK_TEXT => "a word"

/-- `parse_fail` (parser.c lines 91-98): first error wins; the varargs
formatting is modelled by passing the already-formatted message. -/
def parse_fail (p : Parser) (msg : String) : Parser :=
  if p.error.isSome then p
  else { p with error := some msg }

/-- `syntax_error` (parser.c lines 250-256). -/
def syntax_error (p : Parser) (k : TokKind) : Parser :=
  if p.error.isSome then p
  else parse_fail p ("found " ++ tok_name p.tok.kind ++ ", but needed " ++ tok_name k)

/-- `expect` (parser.c lines 258-266). -/
def expect (p : Parser) (k : TokKind) : Parser :=
  if p.error.isSome then p
  else if ¬ haveKind p k then syntax_error p k
  else lex p

/-- `parse_int` (parser.c lines 268-277).  Note the source has no early
return after `syntax_error`: it falls through, reads `tok.i64`, and calls
`lex` (which is then a no-op because the error is latched). -/
def parse_int (p : Parser) : Int × Parser :=
  if p.error.isSome then (0, p)
  else
    let p1 := if haveKind p .TOK_INT then p else syntax_error p .TOK_INT
    (p1.tok.i64, lex p1)

/-- Return type of `parse_float`: a double that is either a rational value
or the `NAN` sentinel. -/
inductive F64 where
  | nan
  | val (q : ℚ)
  deriving DecidableEq

/-- `parse_float` (parser.c lines 279-289): returns `0` on a latched error,
`NAN` on a kind mismatch, otherwise the float value (widening an integer
token). -/
def parse_float (p : Parser) : F64 × Parser :=
  if p.error.isSome then (.val 0, p)
  else if ¬ haveKind p .TOK_INT ∧ ¬ haveKind p .TOK_FLOAT then
    (.nan, syntax_error p .TOK_FLOAT)
  else
    (if p.tok.kind = .TOK_FLOAT then .val p.tok.f64 else .val (p.tok.i64 : ℚ),
     lex p)

/-- The bytes `strncpy(out, src, cap)` writes into the destination: bytes of
`src` up to (excluding) a NUL, NUL-padded to exactly `cap` bytes.  Running
off the end of the buffer without a NUL is modelled as hitting a NUL there
(the NUL terminator of file-backed buffers). -/
def strncpy_written (src : List Char) (cap : Nat) : List Char :=
  match cap, src with
  | 0, _ => []
  | n + 1, [] => List.replicate (n + 1) (Char.ofNat 0)
  | n + 1, c :: rest =>
    if c = Char.ofNat 0 then List.replicate (n + 1) (Char.ofNat 0)
    else c :: strncpy_written rest n

/-- `parse_text` (parser.c lines 291-310).  `outPresent` models whether the
`out` pointer is non-NULL; the middle component of the result is the list of
bytes written through it. -/
def parse_text (p : Parser) (outPresent : Bool) (cap : Nat) :
    Nat × List Char × Parser :=
  if p.error.isSome then (0, [], p)
  else if ¬ haveKind p .TOK_TEXT then (0, [], syntax_error p .TOK_TEXT)
  else
    let len := p.tok.len
    let src := p.tok.start
    let p1 := lex p
    if outPresent = false then (len, [], p1)
    else
      let len1 := if cap < len then cap else len
      (len1, strncpy_written src cap, p1)

/-- A valid decimal integer literal: an optional sign followed by at least
one digit, and nothing else. -/
def validIntLit (s : List Char) : Bool :=
  match s with
  | [] => false
  | c :: ds =>
    if c = '-' ∨ c = '+' then (¬ ds.isEmpty) && ds.all Char.isDigit
    else c.isDigit && ds.all Char.isDigit

/-- Mathematical value of a digit string (base 10). -/
def digitsVal (ds : List Char) : Int :=
  ds.foldl (fun a c => a * 10 + ((c.toNat : Int) - 48)) 0

/-- Mathematical value of a decimal integer literal. -/
def litVal (s : List Char) : Int :=
  match s with
  | [] => 0
  | c :: ds =>
    if c = '-' then -(digitsVal ds)
    else if c = '+' then digitsVal ds
    else digitsVal (c :: ds)

/-- Buffer made of a first literal followed by (separator, literal) pairs. -/
def mkBuf (l : List Char) (rest : List (List Char × List Char)) : List Char :=
  match rest with
  | [] => l
  | (s, l2) :: r => l ++ s ++ mkBuf l2 r

/-- Kinds of the current token and of the next `n - 1` tokens obtained by
repeated `lex`. -/
def traceK (n : Nat) (p : Parser) : List TokKind :=
  match n with
  | 0 => []
  | n + 1 => p.tok.kind :: traceK n (lex p)

/-- Decoded `i64` values of the current token and of the next `n - 1`
tokens obtained by repeated `lex`. -/
def traceI (n : Nat) (p : Parser) : List Int :=
  match n with
  | 0 => []
  | n + 1 => p.tok.i64 :: traceI n (lex p)

/-! ### Helper lemmas about the scanner -/

theorem advance_error (p : Parser) : (advance p).2.error = p.error := by
  unfold advance
  split
  · rfl
  · split
    · rfl
    · split <;> rfl

theorem advance_tok (p : Parser) : (advance p).2.tok = p.tok := by
  unfold advance
  split
  · rfl
  · split
    · rfl
    · split <;> rfl

theorem skipComment_error (fuel : Nat) (p : Parser) :
    (skipComment fuel p).error = p.error := by
  induction fuel generalizing p with
  | zero => rfl
  | succ n ih =>
    unfold skipComment
    split
    · rfl
    · split
      · rfl
      · rw [ih, advance_error]

theorem skipComment_tok (fuel : Nat) (p : Parser) :
    (skipComment fuel p).tok = p.tok := by
  induction fuel generalizing p with
  | zero => rfl
  | succ n ih =>
    unfold skipComment
    split
    · rfl
    · split
      · rfl
      · rw [ih, advance_tok]

theorem skip_whitespace_go_error (fuel : Nat) (p : Parser) :
    (skip_whitespace_go fuel p).error = p.error := by
  induction fuel generalizing p with
  | zero => rfl
  | succ n ih =>
    unfold skip_whitespace_go
    split
    · rfl
    · split
      · rw [ih, advance_error]
      · split
        · rw [ih, skipComment_error]
        · rfl

theorem skip_whitespace_go_tok (fuel : Nat) (p : Parser) :
    (skip_whitespace_go fuel p).tok = p.tok := by
  induction fuel generalizing p with
  | zero => rfl
  | succ n ih =>
    unfold skip_whitespace_go
    split
    · rfl
    · split
      · rw [ih, advance_tok]
      · split
        · rw [ih, skipComment_tok]
        · rfl

theorem skip_whitespace_error (p : Parser) :
    (skip_whitespace p).error = p.error :=
  skip_whitespace_go_error _ p

theorem skip_whitespace_tok (p : Parser) :
    (skip_whitespace p).tok = p.tok :=
  skip_whitespace_go_tok _ p

theorem scanToken_go_error (fuel : Nat) (p : Parser) (len : Nat) (st : TState) :
    ((scanToken_go fuel p len st).1).error = p.error := by
  induction fuel generalizing p len st with
  | zero => rfl
  | succ n ih =>
    unfold scanToken_go
    split
    · next p1 heq =>
      have h2 : p1.error = p.error := by rw [← advance_error p, heq]
      simpa using h2
    · next c p1 heq =>
      have h2 : p1.error = p.error := by rw [← advance_error p, heq]
      split
      · rw [ih, h2]
      · simpa using h2

theorem scanToken_go_tok (fuel : Nat) (p : Parser) (len : Nat) (st : TState) :
    ((scanToken_go fuel p len st).1).tok = p.tok := by
  induction fuel generalizing p len st with
  | zero => rfl
  | succ n ih =>
    unfold scanToken_go
    split
    · next p1 heq =>
      have h2 : p1.tok = p.tok := by rw [← advance_tok p, heq]
      simpa using h2
    · next c p1 heq =>
      have h2 : p1.tok = p.tok := by rw [← advance_tok p, heq]
      split
      · rw [ih, h2]
      · simpa using h2

theorem make_token_error (p : Parser) : (make_token p).error = p.error := by
  unfold make_token
  split
  · next p2 len st h =>
    have h1 : p2.error = (advance p).2.error := by
      have := scanToken_go_error ((advance p).2.rem.length + 1) (advance p).2 1 .STATE_INT
      rw [h] at this
      exact this
    simp only [h1, advance_error]

theorem lex_error (p : Parser) : (lex p).error = p.error := by
  unfold lex
  split
  · rfl
  · dsimp only
    split
    · simp [skip_whitespace_error]
    · split
      · simp [make_token_error, skip_whitespace_error]
      · simp [skip_whitespace_error]

/-! ### Claim theorems -/

/-- C1 (amended): after a latched error, no consumption primitive mutates the
parser state (cursor, token, or error) and the scanner body never runs:
`lex` and `expect` return the state unchanged, `parse_int` returns 0,
`parse_float` returns the double 0, and `parse_text` returns 0 and writes
nothing.  However `have` and `match` are not guarded by the error flag: they
return whether the stale current token's kind equals the argument kind
(`match` without advancing), so they may return `true` rather than a default
`false`. -/
theorem C1_latched_error_noops (p : Parser) (e : String) (k : TokKind) (b : Bool)
    (cap : Nat) (h : p.error = some e) :
    lex p = p ∧ expect p k = p ∧ matchKind p k = (haveKind p k, p) ∧
    parse_int p = (0, p) ∧ parse_float p = (F64.val 0, p) ∧
    parse_text p b cap = (0, [], p) := by
  have hs : p.error.isSome = true := by rw [h]; rfl
  have hlex : lex p = p := by unfold lex; rw [if_pos hs]
  refine ⟨hlex, ?_, ?_, ?_, ?_, ?_⟩
  · unfold expect; rw [if_pos hs]
  · unfold matchKind
    by_cases hk : haveKind p k
    · rw [if_neg (by simpa using hk), hlex, hk]
    · rw [if_pos (by simpa using hk)]
      simp [Bool.not_eq_true] at hk
      rw [hk]
  · unfold parse_int; rw [if_pos hs]
  · unfold parse_float; rw [if_pos hs]
  · unfold parse_text; rw [if_pos hs]

/-- Witness for C1: a concrete reachable latched state (lexing `"abc"` and
then expecting an integer), at which every conclusion of
`C1_latched_error_noops` holds. -/
theorem C1_witness :
    (expect (parse_init "abc".data) .TOK_INT).error =
      some "found a word, but needed an integer" ∧
    (lex (expect (parse_init "abc".data) .TOK_INT) =
        expect (parse_init "abc".data) .TOK_INT ∧
      expect (expect (parse_init "abc".data) .TOK_INT) .TOK_TEXT =
        expect (parse_init "abc".data) .TOK_INT ∧
      matchKind (expect (parse_init "abc".data) .TOK_INT) .TOK_TEXT =
        (haveKind (expect (parse_init "abc".data) .TOK_INT) .TOK_TEXT,
          expect (parse_init "abc".data) .TOK_INT) ∧
      parse_int (expect (parse_init "abc".data) .TOK_INT) =
        (0, expect (parse_init "abc".data) .TOK_INT) ∧
      parse_float (expect (parse_init "abc".data) .TOK_INT) =
        (F64.val 0, expect (parse_init "abc".data) .TOK_INT) ∧
      parse_text (expect (parse_init "abc".data) .TOK_INT) true 5 =
        (0, [], expect (parse_init "abc".data) .TOK_INT)) :=
  ⟨by decide,
   C1_latched_error_noops (expect (parse_init "abc".data) .TOK_INT)
     "found a word, but needed an integer" .TOK_TEXT true 5 (by decide)⟩

/-- Counterexample for C1 as stated: in a latched state whose stale current
token is a Word, `match(Word)` returns `true`, not its documented default
`false`. -/
theorem C1_counterexample :
    (expect (parse_init "abc".data) .TOK_INT).error.isSome = true ∧
    (matchKind (expect (parse_init "abc".data) .TOK_INT) .TOK_TEXT).1 = true := by
  decide

/-- C2 (code bug): on the input `"1 abc"`, the first `parse_int` returns 1
and leaves a Word token current; the second `parse_int` latches the expected
syntax error but, lacking the early return its siblings have, falls through
and returns the stale `tok.i64` value 1 instead of the documented 0. -/
theorem C2_parse_int_stale_value :
    (parse_int (parse_init "1 abc".data)).1 = 1 ∧
    (parse_int (parse_init "1 abc".data)).2.tok.kind = .TOK_TEXT ∧
    (parse_int (parse_int (parse_init "1 abc".data)).2).2.error =
      some "found a word, but needed an integer" ∧
    (parse_int (parse_int (parse_init "1 abc".data)).2).1 = 1 := by
  decide

/-- C4 (amended): `advance` on a non-latched state consumes exactly one byte
and updates exactly one of line/column, but the newline test reads the byte
FOLLOWING the consumed one: the line increments (and the column resets to 0)
when the next remaining byte is a newline, i.e. while consuming the byte
immediately preceding the newline, not the newline itself. -/
theorem C4_advance_per_byte (p : Parser) (c : Char) (rest : List Char)
    (h : p.error = none) (hr : p.rem = c :: rest) :
    (advance p).1 = some c ∧ (advance p).2.rem = rest ∧
    (advance p).2.error = none ∧ (advance p).2.tok = p.tok ∧
    (rest.head? = some '\n' →
      (advance p).2.line = p.line + 1 ∧ (advance p).2.column = 0) ∧
    (rest.head? ≠ some '\n' →
      (advance p).2.line = p.line ∧ (advance p).2.column = p.column + 1) := by
  have hs : p.error.isSome = false := by rw [h]; rfl
  unfold advance
  rw [hs]
  simp only [Bool.false_eq_true, if_false, hr]
  by_cases hn : rest.head? = some '\n'
  · rw [if_pos hn]
    exact ⟨rfl, rfl, h, rfl, fun _ => ⟨rfl, rfl⟩, fun hc => absurd hn hc⟩
  · rw [if_neg hn]
    exact ⟨rfl, rfl, h, rfl, fun hc => absurd hc hn, fun _ => ⟨rfl, rfl⟩⟩

/-- Witness for C4: advancing over `'a'` in `"a\nb"`; the lookahead byte is
the newline, so the line increments and the column resets while consuming
`'a'`. -/
theorem C4_witness :
    ((initParser "a\nb".data).error = none ∧
      (initParser "a\nb".data).rem = 'a' :: "\nb".data) ∧
    ((advance (initParser "a\nb".data)).1 = some 'a' ∧
      (advance (initParser "a\nb".data)).2.rem = "\nb".data ∧
      (advance (initParser "a\nb".data)).2.error = none ∧
      (advance (initParser "a\nb".data)).2.tok = (initParser "a\nb".data).tok ∧
      ("\nb".data.head? = some '\n' →
        (advance (initParser "a\nb".data)).2.line = (initParser "a\nb".data).line + 1 ∧
        (advance (initParser "a\nb".data)).2.column = 0) ∧
      ("\nb".data.head? ≠ some '\n' →
        (advance (initParser "a\nb".data)).2.line = (initParser "a\nb".data).line ∧
        (advance (initParser "a\nb".data)).2.column = (initParser "a\nb".data).column + 1)) :=
  ⟨⟨rfl, rfl⟩, C4_advance_per_byte (initParser "a\nb".data) 'a' "\nb".data rfl rfl⟩

/-- Counterexample for C4 as stated: consuming a newline byte that is not
followed by another newline does NOT increment the line counter and does not
reset the column — the update happened (if at all) one byte earlier. -/
theorem C4_counterexample :
    (advance (initParser "\na".data)).1 = some '\n' ∧
    (advance (initParser "\na".data)).2.line = 0 ∧
    (advance (initParser "\na".data)).2.column = 2 := by
  decide

/-- C7: first error wins.  Whenever an error is already latched, no
operation — `parse_fail` itself, `syntax_error`, the scanner, or any
consumption primitive — replaces or clears the latched message. -/
theorem C7_first_error_sticky (p : Parser) (e m : String) (k : TokKind) (b : Bool)
    (cap : Nat) (h : p.error = some e) :
    (parse_fail p m).error = some e ∧ (syntax_error p k).error = some e ∧
    (lex p).error = some e ∧ (expect p k).error = some e ∧
    ((matchKind p k).2).error = some e ∧ ((parse_int p).2).error = some e ∧
    ((parse_float p).2).error = some e ∧ ((parse_text p b cap).2.2).error = some e := by
  have hs : p.error.isSome = true := by rw [h]; rfl
  have hlex : lex p = p := by unfold lex; rw [if_pos hs]
  refine ⟨?_, ?_, ?_, ?_, ?_, ?_, ?_, ?_⟩
  · unfold parse_fail; rw [if_pos hs]; exact h
  · unfold syntax_error; rw [if_pos hs]; exact h
  · rw [hlex]; exact h
  · unfold expect; rw [if_pos hs]; exact h
  · unfold matchKind
    by_cases hk : haveKind p k
    · rw [if_neg (by simpa using hk)]
      dsimp only
      rw [hlex]; exact h
    · rw [if_pos (by simpa using hk)]; exact h
  · unfold parse_int; rw [if_pos hs]; exact h
  · unfold parse_float; rw [if_pos hs]; exact h
  · unfold parse_text; rw [if_pos hs]; exact h

/-- Witness for C7: the latched state reached by lexing `"abc"` and expecting
an integer keeps its original message across every operation. -/
theorem C7_witness :
    (expect (parse_init "abc".data) .TOK_INT).error =
      some "found a word, but needed an integer" ∧
    ((parse_fail (expect (parse_init "abc".data) .TOK_INT) "boom").error =
        some "found a word, but needed an integer" ∧
      (syntax_error (expect (parse_init "abc".data) .TOK_INT) .TOK_FLOAT).error =
        some "found a word, but needed an integer" ∧
      (lex (expect (parse_init "abc".data) .TOK_INT)).error =
        some "found a word, but needed an integer" ∧
      (expect (expect (parse_init "abc".data) .TOK_INT) .TOK_FLOAT).error =
        some "found a word, but needed an integer" ∧
      ((matchKind (expect (parse_init "abc".data) .TOK_INT) .TOK_FLOAT).2).error =
        some "found a word, but needed an integer" ∧
      ((parse_int (expect (parse_init "abc".data) .TOK_INT)).2).error =
        some "found a word, but needed an integer" ∧
      ((parse_float (expect (parse_init "abc".data) .TOK_INT)).2).error =
        some "found a word, but needed an integer" ∧
      ((parse_text (expect (parse_init "abc".data) .TOK_INT) false 0).2.2).error =
        some "found a word, but needed an integer") :=
  ⟨by decide,
   C7_first_error_sticky (expect (parse_init "abc".data) .TOK_INT)
     "found a word, but needed an integer" "boom" .TOK_FLOAT false 0 (by decide)⟩


/-- C5: classification and decoding of the seven example lexemes, each lexed
as a single token covering the whole input: `"123"` is Integer 123,
`"123.45"` is Float 123.45, `"1.5e-3"` is Float 0.0015, `"1.5e"` is a Word
(incomplete exponent), `"abc123"` is a Word, `"-42"` is Integer -42, and
`"+3.0"` is Float 3.0. -/
theorem C5_classification_examples :
    (parse_init "123".data).tok.kind = .TOK_INT ∧
    (parse_init "123".data).tok.i64 = 123 ∧
    (parse_init "123".data).tok.len = 3 ∧
    (parse_init "123.45".data).tok.kind = .TOK_FLOAT ∧
    (parse_init "123.45".data).tok.f64 = 123.45 ∧
    (parse_init "123.45".data).tok.len = 6 ∧
    (parse_init "1.5e-3".data).tok.kind = .TOK_FLOAT ∧
    (parse_init "1.5e-3".data).tok.f64 = 0.0015 ∧
    (parse_init "1.5e-3".data).tok.len = 6 ∧
    (parse_init "1.5e".data).tok.kind = .TOK_TEXT ∧
    (parse_init "1.5e".data).tok.len = 4 ∧
    (parse_init "abc123".data).tok.kind = .TOK_TEXT ∧
    (parse_init "abc123".data).tok.len = 6 ∧
    (parse_init "-42".data).tok.kind = .TOK_INT ∧
    (parse_init "-42".data).tok.i64 = -42 ∧
    (parse_init "-42".data).tok.len = 3 ∧
    (parse_init "+3.0".data).tok.kind = .TOK_FLOAT ∧
    (parse_init "+3.0".data).tok.f64 = 3.0 ∧
    (parse_init "+3.0".data).tok.len = 4 := by
  refine ⟨by decide, by decide, by decide, by decide, ?_, by decide, by decide, ?_,
    by decide, by decide, by decide, by decide, by decide, by decide, by decide,
    by decide, by decide, ?_, by decide⟩
  · rw [(by norm_num : (123.45 : ℚ) = mkRat 12345 100)]; decide
  · rw [(by norm_num : (0.0015 : ℚ) = mkRat 15 10000)]; decide
  · rw [(by norm_num : (3.0 : ℚ) = mkRat 3 1)]; decide

/-- C6: with no latched error, `expect(kind)` advances exactly one token and
latches nothing when the current token's kind matches, and otherwise latches
exactly one "found X, but needed Y" error built from the human-readable
names of the actual and expected kinds, leaving the rest of the state
(cursor included) untouched. -/
theorem C6_expect_behaviour (p : Parser) (k : TokKind) (h : p.error = none) :
    (p.tok.kind = k → expect p k = lex p ∧ (expect p k).error = none) ∧
    (p.tok.kind ≠ k →
      expect p k = { p with
        error := some ("found " ++ tok_name p.tok.kind ++ ", but needed " ++ tok_name k) }) := by
  have hs : p.error.isSome = false := by rw [h]; rfl
  constructor
  · intro hk
    have hv : haveKind p k = true := by simp [haveKind, hk]
    have he : expect p k = lex p := by
      unfold expect
      rw [if_neg (by simp [hs]), if_neg (by simp [hv])]
    exact ⟨he, by rw [he, lex_error]; exact h⟩
  · intro hk
    have hv : haveKind p k = false := by simp [haveKind, hk]
    unfold expect
    rw [if_neg (by simp [hs]), if_pos (by simp [hv])]
    unfold syntax_error
    rw [if_neg (by simp [hs])]
    unfold parse_fail
    rw [if_neg (by simp [hs])]

/-- Witness for C6: lexing `"abc"` gives a Word token; expecting an integer
latches exactly the "found a word, but needed an integer" message without
moving the cursor. -/
theorem C6_witness :
    (parse_init "abc".data).error = none ∧
    (((parse_init "abc".data).tok.kind = .TOK_INT →
        expect (parse_init "abc".data) .TOK_INT = lex (parse_init "abc".data) ∧
        (expect (parse_init "abc".data) .TOK_INT).error = none) ∧
      ((parse_init "abc".data).tok.kind ≠ .TOK_INT →
        expect (parse_init "abc".data) .TOK_INT = { (parse_init "abc".data) with
          error := some ("found " ++ tok_name (parse_init "abc".data).tok.kind ++
            ", but needed " ++ tok_name .TOK_INT) })) :=
  ⟨by decide, C6_expect_behaviour (parse_init "abc".data) .TOK_INT (by decide)⟩

/-- Characterization of `lex` at end of input: after whitespace skipping the
buffer is exhausted, so the token becomes EndOfFile with its start/position
recorded, and nothing else changes. -/
theorem lex_eof (p : Parser) (h : p.error = none)
    (hr : (skip_whitespace p).rem = []) :
    lex p = { (skip_whitespace p) with
      tok := { (skip_whitespace p).tok with
               kind := .TOK_EOF
               start := (skip_whitespace p).rem
               line := (skip_whitespace p).line
               column := (skip_whitespace p).column } } := by
  have hE : (skip_whitespace p).error = none := by rw [skip_whitespace_error]; exact h
  unfold lex
  rw [if_neg (by simp [h])]
  dsimp only
  simp only [peek, hE]
  rw [hr]
  rfl

/-- Characterization of `lex` at an offending character: after whitespace
skipping the next byte is neither EOF nor a token character, so the token
kind becomes Invalid, the cursor stays at that byte, and `len` is not
updated. -/
theorem lex_invalid_char (p : Parser) (c : Char) (rest : List Char)
    (h : p.error = none) (hr : (skip_whitespace p).rem = c :: rest)
    (hc : is_tok_char c = false) :
    lex p = { (skip_whitespace p) with
      tok := { (skip_whitespace p).tok with
               kind := .TOK_INVALID
               start := (skip_whitespace p).rem
               line := (skip_whitespace p).line
               column := (skip_whitespace p).column } } := by
  have hE : (skip_whitespace p).error = none := by rw [skip_whitespace_error]; exact h
  unfold lex
  rw [if_neg (by simp [h])]
  dsimp only
  simp only [peek, hE]
  rw [hr]
  simp only [Option.isSome_none, Bool.false_eq_true, if_false, List.head?_cons]
  rw [if_neg (by simp [hc])]

/-- Characterization of `lex` at a token character: `make_token` runs on the
whitespace-skipped state with the token's start and position recorded. -/
theorem lex_token_char (p : Parser) (c : Char) (rest : List Char)
    (h : p.error = none) (hr : (skip_whitespace p).rem = c :: rest)
    (hc : is_tok_char c = true) :
    lex p = make_token { (skip_whitespace p) with
      tok := { (skip_whitespace p).tok with
               start := (skip_whitespace p).rem
               line := (skip_whitespace p).line
               column := (skip_whitespace p).column } } := by
  have hE : (skip_whitespace p).error = none := by rw [skip_whitespace_error]; exact h
  unfold lex
  rw [if_neg (by simp [h])]
  dsimp only
  simp only [peek, hE]
  rw [hr]
  simp only [Option.isSome_none, Bool.false_eq_true, if_false, List.head?_cons]
  rw [if_pos (by simp [hc])]

/-- C9 (amended): when, after skipping whitespace and comments, the next
byte is a non-token character, `lex` marks the current token Invalid but
does not advance past the offending byte and does not update the token's
length (which keeps its previous value, 0 right after initialization). -/
theorem C9_invalid_token (p : Parser) (c : Char) (rest : List Char)
    (h : p.error = none) (hr : (skip_whitespace p).rem = c :: rest)
    (hc : is_tok_char c = false) :
    (lex p).tok.kind = .TOK_INVALID ∧
    (lex p).rem = c :: rest ∧
    (lex p).tok.len = p.tok.len ∧
    (lex p).tok.start = c :: rest := by
  rw [lex_invalid_char p c rest h hr hc]
  refine ⟨rfl, hr, ?_, hr⟩
  show (skip_whitespace p).tok.len = p.tok.len
  rw [skip_whitespace_tok]

/-- Witness for C9: on the buffer `"@"` the offending byte is `'@'`; the
token is Invalid, the cursor still holds `"@"`, and `len` is unchanged. -/
theorem C9_witness :
    ((initParser "@".data).error = none ∧
      (skip_whitespace (initParser "@".data)).rem = '@' :: [] ∧
      is_tok_char '@' = false) ∧
    ((lex (initParser "@".data)).tok.kind = .TOK_INVALID ∧
      (lex (initParser "@".data)).rem = '@' :: [] ∧
      (lex (initParser "@".data)).tok.len = (initParser "@".data).tok.len ∧
      (lex (initParser "@".data)).tok.start = '@' :: []) :=
  ⟨⟨rfl, by decide, by decide⟩,
   C9_invalid_token (initParser "@".data) '@' [] rfl (by decide) (by decide)⟩

/-- Counterexample for C9 as stated: lexing `"@"` yields an Invalid token of
length 0 (not 1) and the cursor has NOT advanced past the character. -/
theorem C9_counterexample :
    (parse_init "@".data).tok.kind = .TOK_INVALID ∧
    (parse_init "@".data).tok.len = 0 ∧
    (parse_init "@".data).rem = ['@'] := by
  decide


/-- When the source bytes carry no NUL and the capacity does not exceed the
source, `strncpy` writes exactly the first `cap` source bytes. -/
theorem strncpy_written_take (src : List Char) (cap : Nat)
    (hnn : ∀ ch ∈ src, ch ≠ Char.ofNat 0) (hlen : cap ≤ src.length) :
    strncpy_written src cap = src.take cap := by
  induction cap generalizing src with
  | zero =>
    unfold strncpy_written
    simp
  | succ n ih =>
    cases src with
    | nil => simp at hlen
    | cons c rest =>
      unfold strncpy_written
      rw [if_neg (hnn c (by simp))]
      rw [List.take_succ_cons]
      rw [ih rest (fun ch hm => hnn ch (by simp [hm])) (by simpa using hlen)]

/-- C3 (amended): with no latched error and a current Word token,
`parse_text` with a null output buffer returns the true lexeme length
without writing anything; with a non-null buffer of capacity `cap` smaller
than the lexeme it copies exactly `cap` bytes of the lexeme and returns
`cap` (the number of bytes copied), not the true length — so truncation is
signalled only by the result equalling `cap`. -/
theorem C3_parse_text_truncation (p : Parser) (cap : Nat)
    (h : p.error = none) (hk : p.tok.kind = .TOK_TEXT)
    (hnn : ∀ ch ∈ p.tok.start, ch ≠ Char.ofNat 0)
    (hlen : p.tok.len ≤ p.tok.start.length) :
    parse_text p false cap = (p.tok.len, [], lex p) ∧
    (cap < p.tok.len →
      parse_text p true cap = (cap, p.tok.start.take cap, lex p) ∧
      (p.tok.start.take cap).length = cap) := by
  have hs : p.error.isSome = false := by rw [h]; rfl
  have hv : haveKind p .TOK_TEXT = true := by simp [haveKind, hk]
  constructor
  · unfold parse_text
    rw [if_neg (by simp [hs]), if_neg (by simp [hv])]
    dsimp only
    rw [if_pos rfl]
  · intro hcap
    have hcle : cap ≤ p.tok.start.length := le_trans (le_of_lt hcap) hlen
    constructor
    · unfold parse_text
      rw [if_neg (by simp [hs]), if_neg (by simp [hv])]
      dsimp only
      rw [if_neg (by simp), if_pos hcap]
      rw [strncpy_written_take p.tok.start cap hnn hcle]
    · rw [List.length_take]
      exact min_eq_left hcle

/-- Witness for C3: the Word token `"abc"` of `"abc d"` with capacity 2:
the null-output call returns 3, the capacity-2 call copies `"ab"` and
returns 2. -/
theorem C3_witness :
    ((parse_init "abc d".data).error = none ∧
      (parse_init "abc d".data).tok.kind = .TOK_TEXT ∧
      (parse_init "abc d".data).tok.len = 3 ∧ (2 : Nat) < 3) ∧
    (parse_text (parse_init "abc d".data) false 2 =
        ((parse_init "abc d".data).tok.len, [], lex (parse_init "abc d".data)) ∧
      ((2 : Nat) < (parse_init "abc d".data).tok.len →
        parse_text (parse_init "abc d".data) true 2 =
          (2, (parse_init "abc d".data).tok.start.take 2, lex (parse_init "abc d".data)) ∧
        ((parse_init "abc d".data).tok.start.take 2).length = 2)) :=
  ⟨⟨by decide, by decide, by decide, by decide⟩,
   C3_parse_text_truncation (parse_init "abc d".data) 2 (by decide) (by decide)
     (by decide) (by decide)⟩

/-- Counterexample for C3 as stated: truncating the length-3 lexeme `"abc"`
to capacity 2 returns 2, not the true length 3. -/
theorem C3_counterexample :
    (parse_init "abc d".data).tok.len = 3 ∧
    (parse_text (parse_init "abc d".data) true 2).1 = 2 ∧
    (parse_text (parse_init "abc d".data) true 2).2.1 = ['a', 'b'] := by
  decide


/-- A token character is not one of the four whitespace characters. -/
theorem tok_char_not_ws {c : Char} (h : is_tok_char c = true) : isWsChar c = false := by
  cases hw : isWsChar c with
  | false => rfl
  | true =>
    exfalso
    have hd : ((c = '\t' ∨ c = '\r') ∨ c = ' ') ∨ c = '\n' := by
      simpa [isWsChar] using hw
    rcases hd with ((rfl | rfl) | rfl) | rfl <;> exact absurd h (by decide)

/-- A token character is not the comment character. -/
theorem tok_char_ne_hash {c : Char} (h : is_tok_char c = true) : c ≠ '#' := by
  intro hc
  rw [hc] at h
  exact absurd h (by decide)

/-- `skip_whitespace_go` does nothing when the next byte is neither
whitespace nor the comment character. -/
theorem skip_whitespace_go_nop (fuel : Nat) (p : Parser) (c : Char) (rest : List Char)
    (h : p.error = none) (hr : p.rem = c :: rest)
    (hw : isWsChar c = false) (hh : c ≠ '#') :
    skip_whitespace_go fuel p = p := by
  cases fuel with
  | zero => rfl
  | succ n =>
    unfold skip_whitespace_go
    simp only [peek, h, Option.isSome_none, Bool.false_eq_true, if_false]
    rw [hr]
    simp only [List.head?_cons]
    rw [if_neg (by simp [hw]), if_neg hh]

/-- `skip_whitespace` does nothing when the next byte is neither whitespace
nor the comment character. -/
theorem skip_whitespace_nop (p : Parser) (c : Char) (rest : List Char)
    (h : p.error = none) (hr : p.rem = c :: rest)
    (hw : isWsChar c = false) (hh : c ≠ '#') :
    skip_whitespace p = p :=
  skip_whitespace_go_nop _ p c rest h hr hw hh

/-- The scanning loop neither reads nor depends on the token field: running
it with the token replaced gives the same length and classifier state, and
the same final cursor with the token still replaced. -/
theorem advance_tok_irrel (p : Parser) (t : Tok) :
    advance { p with tok := t } = ((advance p).1, { (advance p).2 with tok := t }) := by
  unfold advance
  by_cases h : p.error.isSome
  · simp only [h, if_pos]
  · simp only [Bool.not_eq_true] at h
    simp only [h, Bool.false_eq_true, if_false]
    cases hr : p.rem with
    | nil => simp [hr]
    | cons c rest =>
      dsimp only
      by_cases hn : rest.head? = some '\n'
      · simp [hn]
      · simp [hn]

theorem scanToken_go_tok_irrel (fuel : Nat) (p : Parser) (t : Tok) (len : Nat) (st : TState) :
    scanToken_go fuel { p with tok := t } len st =
      ({ (scanToken_go fuel p len st).1 with tok := t },
        (scanToken_go fuel p len st).2.1, (scanToken_go fuel p len st).2.2) := by
  induction fuel generalizing p len st with
  | zero => rfl
  | succ n ih =>
    unfold scanToken_go
    rw [advance_tok_irrel p t]
    cases hadv : advance p with
    | mk oc p1 =>
      cases oc with
      | none => rfl
      | some c =>
        dsimp only
        by_cases hc : is_tok_char c
        · rw [if_pos hc, if_pos hc, ih]
        · rw [if_neg hc, if_neg hc]

/-- Two starting states whose post-`advance` cursors agree except for the
token field produce tokens of the same kind: the classification depends only
on the bytes after the first one. -/
theorem make_token_kind_eq (pa pb : Parser)
    (h : (advance pb).2 = { (advance pa).2 with tok := (advance pb).2.tok }) :
    (make_token pb).tok.kind = (make_token pa).tok.kind := by
  unfold make_token
  rw [h, scanToken_go_tok_irrel]
  cases hsc : scanToken_go ((advance pa).2.rem.length + 1) (advance pa).2 1 .STATE_INT with
  | mk q r2 =>
    cases r2 with
    | mk len st =>
      dsimp only
      by_cases hk : kind_from_state st = .TOK_INT
      · simp [hk]
      · by_cases hk2 : kind_from_state st = .TOK_FLOAT <;> simp [hk, hk2]

/-- C10: the classifying automaton never inspects the first byte of a
lexeme: two lexemes that differ only in their (token-character) first byte
classify identically, and a single-character lexeme — even a non-digit like
`"x"` or `"+"` — always classifies as Integer, the automaton's start
state. -/
theorem C10_first_char_ignored (c1 c2 : Char) (rest : List Char)
    (h1 : is_tok_char c1 = true) (h2 : is_tok_char c2 = true) :
    (lex (initParser (c1 :: rest))).tok.kind = (lex (initParser (c2 :: rest))).tok.kind ∧
    (lex (initParser [c1])).tok.kind = .TOK_INT := by
  have hsw1 : skip_whitespace (initParser (c1 :: rest)) = initParser (c1 :: rest) :=
    skip_whitespace_nop _ c1 rest rfl rfl (tok_char_not_ws h1) (tok_char_ne_hash h1)
  have hsw2 : skip_whitespace (initParser (c2 :: rest)) = initParser (c2 :: rest) :=
    skip_whitespace_nop _ c2 rest rfl rfl (tok_char_not_ws h2) (tok_char_ne_hash h2)
  constructor
  · rw [lex_token_char _ c1 rest rfl (by rw [hsw1]; rfl) h1,
        lex_token_char _ c2 rest rfl (by rw [hsw2]; rfl) h2,
        hsw1, hsw2]
    apply make_token_kind_eq
    unfold advance initParser initTok
    by_cases hn : rest.head? = some '\n' <;> simp [hn]
  · have hsw : skip_whitespace (initParser [c1]) = initParser [c1] :=
      skip_whitespace_nop _ c1 [] rfl rfl (tok_char_not_ws h1) (tok_char_ne_hash h1)
    rw [lex_token_char _ c1 [] rfl (by rw [hsw]; rfl) h1, hsw]
    unfold make_token
    simp [advance, initParser, initTok, scanToken_go, kind_from_state]

/-- Witness for C10: `"x"` versus `"7"` before the same tail, and the
single-character word `"x"` lexing as an Integer token. -/
theorem C10_witness :
    (is_tok_char 'x' = true ∧ is_tok_char '7' = true) ∧
    ((lex (initParser ('x' :: "1".data))).tok.kind =
        (lex (initParser ('7' :: "1".data))).tok.kind ∧
      (lex (initParser ['x'])).tok.kind = .TOK_INT) :=
  ⟨⟨by decide, by decide⟩, C10_first_char_ignored 'x' '7' "1".data (by decide) (by decide)⟩


/-- A digit is a token character. -/
theorem digit_is_tok {c : Char} (h : c.isDigit = true) : is_tok_char c = true := by
  simp [is_tok_char, Char.isAlphanum, h]

/-- A digit is not a whitespace character. -/
theorem digit_not_ws {c : Char} (h : c.isDigit = true) : isWsChar c = false := by
  cases hw : isWsChar c with
  | false => rfl
  | true =>
    exfalso
    have hd : ((c = '\t' ∨ c = '\r') ∨ c = ' ') ∨ c = '\n' := by
      simpa [isWsChar] using hw
    rcases hd with ((rfl | rfl) | rfl) | rfl <;> exact absurd h (by decide)

/-- A whitespace character is not a token character. -/
theorem ws_not_tok {c : Char} (h : isWsChar c = true) : is_tok_char c = false := by
  cases ht : is_tok_char c with
  | false => rfl
  | true => rw [tok_char_not_ws ht] at h; exact absurd h (by simp)

/-- A whitespace character is not a digit. -/
theorem ws_not_digit {c : Char} (h : isWsChar c = true) : c.isDigit = false := by
  cases hd : c.isDigit with
  | false => rfl
  | true => rw [digit_not_ws hd] at h; exact absurd h (by simp)

/-- The classifier stays in its start state on a digit. -/
theorem tstep_int_digit {c : Char} (h : c.isDigit = true) :
    tstep .STATE_INT c = .STATE_INT := by
  have hne : c ≠ '.' := by intro hc; rw [hc] at h; exact absurd h (by decide)
  unfold tstep
  rw [if_neg hne, if_neg (by simp [h])]

/-- `advance` on a non-latched, nonempty cursor returns the head byte. -/
theorem advance_cons_fst (p : Parser) (c : Char) (r : List Char)
    (h : p.error = none) (hr : p.rem = c :: r) :
    (advance p).1 = some c := by
  unfold advance
  rw [if_neg (by simp [h]), hr]
  dsimp only
  split <;> rfl

/-- `advance` on a non-latched, nonempty cursor drops the head byte. -/
theorem advance_cons_rem (p : Parser) (c : Char) (r : List Char)
    (h : p.error = none) (hr : p.rem = c :: r) :
    (advance p).2.rem = r := by
  unfold advance
  rw [if_neg (by simp [h]), hr]
  dsimp only
  split <;> rfl

/-- `advance` on a non-latched, exhausted cursor is the identity. -/
theorem advance_nil (p : Parser) (h : p.error = none) (hr : p.rem = []) :
    advance p = (none, p) := by
  unfold advance
  rw [if_neg (by simp [h]), hr]


/-- `skip_whitespace_go` consumes a pure-whitespace prefix and stops at a
following byte that is neither whitespace nor the comment character. -/
theorem skip_whitespace_go_ws (w : List Char) (fuel : Nat) (p : Parser)
    (rest : List Char)
    (h : p.error = none) (hr : p.rem = w ++ rest)
    (hw : ∀ ch ∈ w, isWsChar ch = true)
    (hrest : ∀ ch, rest.head? = some ch → isWsChar ch = false ∧ ch ≠ '#')
    (hf : w.length < fuel) :
    (skip_whitespace_go fuel p).rem = rest := by
  induction w generalizing p fuel with
  | nil =>
    cases fuel with
    | zero => exact absurd hf (by simp)
    | succ n =>
      unfold skip_whitespace_go
      simp only [peek, h, Option.isSome_none, Bool.false_eq_true, if_false]
      rw [hr]
      cases rest with
      | nil => simpa using hr
      | cons ch rtail =>
        obtain ⟨hch1, hch2⟩ := hrest ch rfl
        simp only [List.nil_append, List.head?_cons]
        rw [if_neg (by simp [hch1]), if_neg hch2]
        rw [hr]
        rfl
  | cons c w2 ih =>
    cases fuel with
    | zero => exact absurd hf (by simp)
    | succ n =>
      unfold skip_whitespace_go
      simp only [peek, h, Option.isSome_none, Bool.false_eq_true, if_false]
      rw [hr]
      simp only [List.cons_append, List.head?_cons]
      rw [if_pos (by simp [hw c (by simp)])]
      apply ih n (advance p).2
      · rw [advance_error]; exact h
      · exact advance_cons_rem p c (w2 ++ rest) h (by rw [hr]; rfl)
      · exact fun ch hm => hw ch (by simp [hm])
      · have := hf
        simp only [List.length_cons] at this
        omega

/-- `skip_whitespace` consumes a pure-whitespace prefix and stops at a
following byte that is neither whitespace nor the comment character. -/
theorem skip_whitespace_ws (w : List Char) (p : Parser) (rest : List Char)
    (h : p.error = none) (hr : p.rem = w ++ rest)
    (hw : ∀ ch ∈ w, isWsChar ch = true)
    (hrest : ∀ ch, rest.head? = some ch → isWsChar ch = false ∧ ch ≠ '#') :
    (skip_whitespace p).rem = rest := by
  apply skip_whitespace_go_ws w (p.rem.length + 1) p rest h hr hw hrest
  rw [hr]
  simp only [List.length_append]
  omega


/-- The scanning loop over a digit run: starting in the classifier's start
state it accepts every digit, stays in the start state, counts the digits,
consumes the terminating byte (when there is one), and leaves the token
untouched. -/
theorem scanToken_go_digits (ds : List Char) (fuel : Nat) (p : Parser)
    (rest : List Char) (len : Nat)
    (h : p.error = none) (hr : p.rem = ds ++ rest)
    (hd : ∀ ch ∈ ds, ch.isDigit = true)
    (hrest : ∀ ch, rest.head? = some ch → is_tok_char ch = false)
    (hf : ds.length < fuel) :
    (scanToken_go fuel p len .STATE_INT).1.rem = rest.drop 1 ∧
    (scanToken_go fuel p len .STATE_INT).1.error = none ∧
    (scanToken_go fuel p len .STATE_INT).1.tok = p.tok ∧
    (scanToken_go fuel p len .STATE_INT).2.1 = len + ds.length ∧
    (scanToken_go fuel p len .STATE_INT).2.2 = .STATE_INT := by
  induction ds generalizing p fuel len with
  | nil =>
    cases fuel with
    | zero => exact absurd hf (by simp)
    | succ n =>
      unfold scanToken_go
      cases rest with
      | nil =>
        rw [advance_nil p h (by simpa using hr)]
        exact ⟨by simpa using hr, h, rfl, by simp, rfl⟩
      | cons ch rtail =>
        have hch := hrest ch rfl
        have h1 : (advance p).1 = some ch :=
          advance_cons_fst p ch rtail h (by simpa using hr)
        have h2 : (advance p).2.rem = rtail :=
          advance_cons_rem p ch rtail h (by simpa using hr)
        have h3 : (advance p).2.error = none := by rw [advance_error]; exact h
        have h4 : (advance p).2.tok = p.tok := advance_tok p
        cases hadv : advance p with
        | mk oc p1 =>
          rw [hadv] at h1 h2 h3 h4
          subst h1
          dsimp only
          rw [if_neg (by simp [hch])]
          exact ⟨h2, h3, h4, by simp, rfl⟩
  | cons d ds2 ih =>
    cases fuel with
    | zero => exact absurd hf (by simp)
    | succ n =>
      unfold scanToken_go
      have hd0 : d.isDigit = true := hd d (by simp)
      have h1 : (advance p).1 = some d :=
        advance_cons_fst p d (ds2 ++ rest) h (by rw [hr]; rfl)
      have h2 : (advance p).2.rem = ds2 ++ rest :=
        advance_cons_rem p d (ds2 ++ rest) h (by rw [hr]; rfl)
      have h3 : (advance p).2.error = none := by rw [advance_error]; exact h
      have h4 : (advance p).2.tok = p.tok := advance_tok p
      cases hadv : advance p with
      | mk oc p1 =>
        rw [hadv] at h1 h2 h3 h4
        subst h1
        dsimp only
        rw [if_pos (by simp [digit_is_tok hd0]), tstep_int_digit hd0]
        have hx := ih n p1 (len + 1) h3 h2 (fun ch hm => hd ch (by simp [hm]))
          (by simp only [List.length_cons] at hf; omega)
        refine ⟨hx.1, hx.2.1, by rw [hx.2.2.1, h4], ?_, hx.2.2.2.2⟩
        rw [hx.2.2.2.1]
        simp only [List.length_cons]
        omega


/-- The `strtol` digit loop over a digit run followed by a non-digit folds
exactly the run. -/
theorem atolLoop_append (ds : List Char) (rest : List Char) (acc : Int)
    (hd : ∀ ch ∈ ds, ch.isDigit = true)
    (hrest : ∀ ch, rest.head? = some ch → ch.isDigit = false) :
    atolLoop acc (ds ++ rest) =
      ds.foldl (fun a c => a * 10 + ((c.toNat : Int) - 48)) acc := by
  induction ds generalizing acc with
  | nil =>
    cases rest with
    | nil => rfl
    | cons ch rtail =>
      have hch := hrest ch rfl
      unfold atolLoop
      simp only [List.nil_append, List.foldl_nil]
      rw [if_neg (by simp [hch])]
  | cons d ds2 ih =>
    unfold atolLoop
    simp only [List.cons_append, List.foldl_cons]
    rw [if_pos (by simp [hd d (by simp)])]
    exact ih _ (fun ch hm => hd ch (by simp [hm]))

/-- `atol` on a valid decimal integer literal followed by digit-free bytes
decodes exactly the literal's mathematical value. -/
theorem atol_lit (lit rest : List Char) (hv : validIntLit lit = true)
    (hrest : ∀ ch, rest.head? = some ch → ch.isDigit = false) :
    atol (lit ++ rest) = litVal lit := by
  cases lit with
  | nil => exact absurd hv (by simp [validIntLit])
  | cons c ds =>
    have hv2 := hv
    simp only [validIntLit] at hv2
    by_cases hsign : c = '-' ∨ c = '+'
    · rw [if_pos hsign] at hv2
      simp only [Bool.and_eq_true, List.all_eq_true] at hv2
      have hds : ∀ ch ∈ ds, ch.isDigit = true := fun ch hm => hv2.2 ch hm
      have key := atolLoop_append ds rest 0 hds hrest
      rcases hsign with rfl | rfl
      · simp [atol, litVal, key, digitsVal]
      · simp [atol, litVal, key, digitsVal]
    · push_neg at hsign
      rw [if_neg (by tauto)] at hv2
      simp only [Bool.and_eq_true, List.all_eq_true] at hv2
      have hds : ∀ ch ∈ (c :: ds), ch.isDigit = true := by
        intro ch hm
        rcases List.mem_cons.mp hm with rfl | hm2
        · exact hv2.1
        · exact hv2.2 ch hm2
      have key := atolLoop_append (c :: ds) rest 0 hds hrest
      simp only [List.cons_append] at key
      simp [atol, litVal, hsign.1, hsign.2, key, digitsVal]

/-- The head of a valid integer literal is a token character, not
whitespace, not the comment character; its remaining characters are
digits. -/
theorem lit_head_facts (c : Char) (ds : List Char)
    (hv : validIntLit (c :: ds) = true) :
    is_tok_char c = true ∧ isWsChar c = false ∧ c ≠ '#' ∧
    ∀ ch ∈ ds, ch.isDigit = true := by
  have hv2 := hv
  simp only [validIntLit] at hv2
  by_cases hsign : c = '-' ∨ c = '+'
  · rw [if_pos hsign] at hv2
    simp only [Bool.and_eq_true, List.all_eq_true] at hv2
    refine ⟨?_, ?_, ?_, fun ch hm => hv2.2 ch hm⟩ <;>
      rcases hsign with rfl | rfl <;> decide
  · push_neg at hsign
    rw [if_neg (by tauto)] at hv2
    simp only [Bool.and_eq_true, List.all_eq_true] at hv2
    refine ⟨digit_is_tok hv2.1, digit_not_ws hv2.1, ?_, fun ch hm => hv2.2 ch hm⟩
    intro hc
    rw [hc] at hv2
    exact absurd hv2.1 (by decide)

/-- `make_token` positioned at a valid integer literal followed by
whitespace or end of input: produces an Integer token decoding the literal,
latches nothing, and leaves the cursor after the literal's terminating byte
(which the scanning loop consumes). -/
theorem make_token_int_lit (p2 : Parser) (c : Char) (ds rest : List Char)
    (h : p2.error = none) (hr : p2.rem = c :: (ds ++ rest))
    (hstart : p2.tok.start = c :: (ds ++ rest))
    (hrest : ∀ ch, rest.head? = some ch → isWsChar ch = true)
    (hv : validIntLit (c :: ds) = true) :
    (make_token p2).rem = rest.drop 1 ∧ (make_token p2).error = none ∧
    (make_token p2).tok.kind = .TOK_INT ∧
    (make_token p2).tok.i64 = litVal (c :: ds) := by
  obtain ⟨htc, hnw, hnh, hds⟩ := lit_head_facts c ds hv
  have h1rem : (advance p2).2.rem = ds ++ rest := advance_cons_rem p2 c _ h hr
  have h1err : (advance p2).2.error = none := by rw [advance_error]; exact h
  have h1tok : (advance p2).2.tok = p2.tok := advance_tok p2
  have hsc := scanToken_go_digits ds ((advance p2).2.rem.length + 1) (advance p2).2
    rest 1 h1err h1rem hds
    (fun ch hm => ws_not_tok (hrest ch hm))
    (by rw [h1rem]; simp only [List.length_append]; omega)
  have hdecode := atol_lit (c :: ds) rest hv
    (fun ch hm => ws_not_digit (hrest ch hm))
  simp only [List.cons_append] at hdecode
  unfold make_token
  cases hx : scanToken_go ((advance p2).2.rem.length + 1) (advance p2).2 1 .STATE_INT with
  | mk q r2 =>
    cases r2 with
    | mk len st =>
      rw [hx] at hsc
      dsimp only at hsc
      have hst : st = .STATE_INT := hsc.2.2.2.2
      subst hst
      dsimp only
      refine ⟨hsc.1, hsc.2.1, ?_, ?_⟩
      · simp [kind_from_state]
      · simp only [kind_from_state]
        rw [if_pos trivial]
        show atol q.tok.start = litVal (c :: ds)
        rw [hsc.2.2.1, h1tok, hstart]
        exact hdecode


/-- `lex` on a non-latched state positioned at optional whitespace, then a
valid integer literal, then whitespace or end of input: yields an Integer
token decoding the literal, latches nothing, and leaves the cursor after
the literal's terminating byte. -/
theorem lex_int_lit (p : Parser) (w lit rest : List Char)
    (h : p.error = none) (hr : p.rem = w ++ lit ++ rest)
    (hw : ∀ ch ∈ w, isWsChar ch = true)
    (hv : validIntLit lit = true)
    (hrest : ∀ ch, rest.head? = some ch → isWsChar ch = true) :
    (lex p).rem = rest.drop 1 ∧ (lex p).error = none ∧
    (lex p).tok.kind = .TOK_INT ∧ (lex p).tok.i64 = litVal lit := by
  cases lit with
  | nil => exact absurd hv (by simp [validIntLit])
  | cons c ds =>
    obtain ⟨htc, hnw, hnh, hds⟩ := lit_head_facts c ds hv
    have hsw : (skip_whitespace p).rem = c :: (ds ++ rest) := by
      have := skip_whitespace_ws w p ((c :: ds) ++ rest) h
        (by rw [hr]; simp) hw
        (by intro ch hm
            simp only [List.cons_append, List.head?_cons] at hm
            injection hm with hm
            subst hm
            exact ⟨hnw, hnh⟩)
      simpa using this
    rw [lex_token_char p c (ds ++ rest) h hsw htc]
    apply make_token_int_lit _ c ds rest
    · show (skip_whitespace p).error = none
      rw [skip_whitespace_error]; exact h
    · exact hsw
    · exact hsw
    · exact hrest
    · exact hv


/-- `lex` at end of input produces an EndOfFile token. -/
theorem lex_eof_kind (q : Parser) (h : q.error = none) (hr : q.rem = []) :
    (lex q).tok.kind = .TOK_EOF := by
  have hsw : (skip_whitespace q).rem = [] := by
    unfold skip_whitespace
    rw [hr]
    unfold skip_whitespace_go
    simp [peek, h, hr]
  rw [lex_eof q h hsw]

/-- Tokenizing, from any suitable state, a buffer of `rest.length + 1` valid
integer literals separated by nonempty whitespace runs: the next
`rest.length + 1` tokens are Integer tokens decoding the literals in source
order, followed by an EndOfFile token. -/
theorem trace_int_lits (rest : List (List Char × List Char)) (l w : List Char)
    (p : Parser)
    (h : p.error = none) (hr : p.rem = w ++ mkBuf l rest)
    (hw : ∀ ch ∈ w, isWsChar ch = true)
    (hl : validIntLit l = true)
    (hrest : ∀ pr ∈ rest, pr.1 ≠ [] ∧ (∀ ch ∈ pr.1, isWsChar ch = true) ∧
      validIntLit pr.2 = true) :
    traceK (rest.length + 2) (lex p) =
      List.replicate (rest.length + 1) .TOK_INT ++ [.TOK_EOF] ∧
    traceI (rest.length + 1) (lex p) = (l :: rest.map Prod.snd).map litVal := by
  induction rest generalizing l w p with
  | nil =>
    have hx := lex_int_lit p w l [] h (by simpa [mkBuf] using hr) hw hl
      (by intro ch hc; simp at hc)
    have heof : (lex (lex p)).tok.kind = .TOK_EOF :=
      lex_eof_kind (lex p) hx.2.1 (by simpa using hx.1)
    constructor
    · show (lex p).tok.kind :: traceK 1 (lex (lex p)) =
        List.replicate 1 .TOK_INT ++ [.TOK_EOF]
      rw [hx.2.2.1]
      show _ :: (lex (lex p)).tok.kind :: traceK 0 (lex (lex (lex p))) = _
      rw [heof]
      rfl
    · show (lex p).tok.i64 :: traceI 0 (lex (lex p)) = _
      rw [hx.2.2.2]
      rfl
  | cons pr rest2 ih =>
    obtain ⟨s, l2⟩ := pr
    obtain ⟨hs_ne, hs_ws, hl2⟩ := hrest ⟨s, l2⟩ (by simp)
    cases s with
    | nil => exact absurd rfl hs_ne
    | cons sc stail =>
      have hx := lex_int_lit p w l ((sc :: stail) ++ mkBuf l2 rest2) h
        (by rw [hr]; simp [mkBuf])
        hw hl
        (by intro ch hm
            simp only [List.cons_append, List.head?_cons] at hm
            injection hm with hm
            subst hm
            exact hs_ws sc (by simp))
      have hih := ih l2 stail (lex p) hx.2.1
        (by simpa using hx.1)
        (fun ch hm => hs_ws ch (by simp [hm]))
        hl2
        (fun pr2 hm => hrest pr2 (by simp [hm]))
      constructor
      · show (lex p).tok.kind :: traceK (rest2.length + 2) (lex (lex p)) = _
        rw [hx.2.2.1, hih.1]
        simp [List.replicate_succ]
      · show (lex p).tok.i64 :: traceI (rest2.length + 1) (lex (lex p)) = _
        rw [hx.2.2.2, hih.2]
        rfl

/-- C8: tokenizing a buffer of N (= `rest.length + 1 ≥ 1`; `parse_init`
requires a nonempty buffer) valid whitespace-separated decimal integer
literals — a first literal followed by (separator, literal) pairs with
nonempty all-whitespace separators — yields exactly N Integer tokens in
source order, each decoding to its literal's value, followed by an
EndOfFile token. -/
theorem C8_int_roundtrip (l : List Char) (rest : List (List Char × List Char))
    (hl : validIntLit l = true)
    (hrest : ∀ pr ∈ rest, pr.1 ≠ [] ∧ (∀ ch ∈ pr.1, isWsChar ch = true) ∧
      validIntLit pr.2 = true) :
    traceK (rest.length + 2) (parse_init (mkBuf l rest)) =
      List.replicate (rest.length + 1) .TOK_INT ++ [.TOK_EOF] ∧
    traceI (rest.length + 1) (parse_init (mkBuf l rest)) =
      (l :: rest.map Prod.snd).map litVal :=
  trace_int_lits rest l [] (initParser (mkBuf l rest)) rfl (by simp [initParser])
    (by simp) hl hrest

/-- Witness for C8: the three literals `"12"`, `"-4"`, `"7"` separated by a
space and a newline-tab run lex to three Integer tokens 12, -4, 7 and then
EndOfFile. -/
theorem C8_witness :
    (validIntLit "12".data = true ∧
      (∀ pr ∈ [(" ".data, "-4".data), ("\n\t".data, "7".data)],
        pr.1 ≠ [] ∧ (∀ ch ∈ pr.1, isWsChar ch = true) ∧ validIntLit pr.2 = true)) ∧
    (traceK 4 (parse_init (mkBuf "12".data [(" ".data, "-4".data), ("\n\t".data, "7".data)])) =
        List.replicate 3 .TOK_INT ++ [.TOK_EOF] ∧
      traceI 3 (parse_init (mkBuf "12".data [(" ".data, "-4".data), ("\n\t".data, "7".data)])) =
        ("12".data :: [(" ".data, "-4".data), ("\n\t".data, "7".data)].map Prod.snd).map litVal) :=
  ⟨⟨by decide, by decide⟩,
   C8_int_roundtrip "12".data [(" ".data, "-4".data), ("\n\t".data, "7".data)]
     (by decide) (by decide)⟩

